import Mathlib

/-!
Verification of the quiz runner (src/quiz.py) against its specification.

The program is embedded shallowly:
* A JSON-ish scalar/object value type `Value` models the values stored in a
  question record.  Per the resource format, an `options` mapping sends short
  string keys to display strings, so the `dict` constructor carries
  `List (String × String)` (Python dicts are insertion ordered, which an
  association list preserves).
* A raw question record (a parsed JSON object) is an association list from
  field names to values.
* Console output is modelled as a list of printed lines; `input()` is modelled
  by a scripted list of input lines that the session consumes.  Running out of
  scripted input models the process blocking forever on `input()`.
* `random.shuffle` is modelled by passing the shuffled list as an explicit
  parameter, constrained (in theorems) to be a permutation of the input —
  exactly the postcondition of an in-place shuffle.
* `sys.exit` / uncaught-then-caught exceptions in `main` are modelled by the
  `RunResult` outcome type.
-/

/-- A JSON-ish value as stored in a question record.  Option display texts are
strings per the resource format, so `dict` maps keys to strings. -/
inductive Value where
  | str (s : String)
  | num (n : Int)
  | bool (b : Bool)
  | null
  | dict (entries : List (String × String))
deriving DecidableEq, Repr

/-- Python string conversion of a value, as used inside f-string messages.
Only the `str` case is ever inspected by the specification's claims; the
rendering of the other cases is abbreviated. -/
def Value.render : Value → String
  | Value.str s => s
  | Value.num n => toString n
  | Value.bool b => if b then "True" else "False"
  | Value.null => "None"
  | Value.dict _ => "<dict>"

/-- Python equality test between a value and a string
(`user_answer == question["answer"]`, `q["answer"] in q["options"]`):
a JSON value equals a string exactly when it is that string. -/
def Value.eqStr : Value → String → Bool
  | Value.str s, t => s == t
  | _, _ => false

/-- A raw question record: a parsed JSON object, i.e. an insertion-ordered
association list from field names to values. -/
def RawQuestion : Type := List (String × Value)

instance : DecidableEq RawQuestion := by
  unfold RawQuestion
  infer_instance

/-- Python dict lookup `q[field]` / membership `field in q` on a record. -/
def lookupField (question : RawQuestion) (field : String) : Option Value :=
  (question.find? (fun p => p.1 == field)).map (fun p => p.2)

/-- `q["options"]` of a validated record: the entries of the options dict.
(Source code only reads this after validation has ensured it is a dict.) -/
def qOptions (question : RawQuestion) : List (String × String) :=
  match lookupField question "options" with
  | some (Value.dict entries) => entries
  | _ => []

/-- `list(question["options"].keys())`. -/
def qKeys (question : RawQuestion) : List String :=
  (qOptions question).map Prod.fst

/-- `q["answer"]` of a validated record. -/
def qAnswer (question : RawQuestion) : Value :=
  (lookupField question "answer").getD Value.null

/-- `q["answer_description"]` of a validated record. -/
def qAnswerDesc (question : RawQuestion) : Value :=
  (lookupField question "answer_description").getD Value.null

/-- `q["q"]` of a validated record. -/
def qText (question : RawQuestion) : Value :=
  (lookupField question "q").getD Value.null

/-! ## Validator (validate_questions, src/quiz.py lines 41-64) -/

/-- The required fields, in the order the source checks them. -/
def requiredFields : List String :=
  ["id", "q", "options", "answer", "answer_description"]

/-- The specific defect of an invalid record: the three `ValueError`
branches of `validate_questions`, plus the `TypeError` that the membership
test `q["answer"] not in q["options"]` raises when the answer value is an
unhashable mapping. -/
inductive Defect where
  | missingField (field : String)
  | badOptions
  | badAnswer (rendered : String)
  | unhashableAnswer
deriving DecidableEq, Repr

/-- The kind of exception a defect raises in the source: the explicit
`raise ValueError(...)` statements, or the `TypeError` coming out of the
membership test itself. -/
inductive PyError where
  | valueError (msg : String)
  | typeError (msg : String)
deriving DecidableEq, Repr

/-- Whether an exception is a `ValueError` (the kind `main` catches with the
specific handler and reports as `Error: ...`; anything else falls to the
generic handler as `Unexpected error: ...`). -/
def PyError.isValueError : PyError → Bool
  | PyError.valueError _ => true
  | PyError.typeError _ => false

/-- The first defect of a record, in source order: first missing required
field; else options not a dict with at least 2 entries; else the answer
check — whose membership test raises `TypeError` for an unhashable (dict)
answer value before any comparison happens, and otherwise fails when the
answer value is not among the option keys. -/
def questionDefect (question : RawQuestion) : Option Defect :=
  match requiredFields.find? (fun field => (lookupField question field).isNone) with
  | some field => some (Defect.missingField field)
  | none =>
    match lookupField question "options" with
    | some (Value.dict entries) =>
      if entries.length < 2 then some Defect.badOptions
      else
        match lookupField question "answer" with
        | some (Value.dict _) => some Defect.unhashableAnswer
        | some a =>
          if entries.any (fun e => Value.eqStr a e.1) then none
          else some (Defect.badAnswer a.render)
        | none => none
    | some _ => some Defect.badOptions
    | none => none

/-- The exception raised for a defect of the record at 0-based index `i`.
The three `ValueError` messages show the 1-based position `i + 1`; the
`TypeError` message is Python's fixed `unhashable type` text (quotation
marks around the type name omitted), which names no position. -/
def defectError (i : Nat) : Defect → PyError
  | Defect.missingField field =>
    PyError.valueError
      ("Question " ++ toString (i + 1) ++ " is missing required field: " ++ field)
  | Defect.badOptions =>
    PyError.valueError
      ("Question " ++ toString (i + 1) ++ " must have at least 2 options")
  | Defect.badAnswer rendered =>
    PyError.valueError
      ("Question " ++ toString (i + 1) ++ " has an invalid answer: " ++ rendered)
  | Defect.unhashableAnswer =>
    PyError.typeError "unhashable type: dict"

/-- The `for i, q in enumerate(questions)` loop of `validate_questions`,
started at index `i`. -/
def validateFrom (i : Nat) : List RawQuestion → Except PyError Unit
  | [] => Except.ok ()
  | question :: rest =>
    match questionDefect question with
    | some d => Except.error (defectError i d)
    | none => validateFrom (i + 1) rest

/-- `validate_questions`: raises (returns `Except.error`) at the first
invalid record. -/
def validate_questions (questions : List RawQuestion) : Except PyError Unit :=
  validateFrom 0 questions

/-! ## Selector (select_random_questions, src/quiz.py lines 67-84) -/

/-- `select_random_questions`.  The result of `random.shuffle` on the copied
list is passed in as `shuffled`; theorems constrain it to be a permutation of
`questions`.  When more questions are requested than exist, the original list
(per `questions.copy()`) is returned unshuffled. -/
def select_random_questions (questions : List RawQuestion) (count : Nat)
    (shuffled : List RawQuestion) : List RawQuestion :=
  if count > questions.length then questions
  else shuffled.take count

/-- The lines printed by `select_random_questions` (the under-supply
warning). -/
def select_random_questions_output (questions : List RawQuestion) (count : Nat) :
    List String :=
  if count > questions.length then
    ["Warning: Requested " ++ toString count ++ " questions, but only " ++
      toString questions.length ++ " are available."]
  else []

/-! ## Session runner (display_question, get_user_answer, run_quiz,
src/quiz.py lines 87-146) -/

/-- Python `str.isspace` on a character, restricted to ASCII whitespace
(which covers the console input this program reads). -/
def isSpaceChar (c : Char) : Bool :=
  c == ' ' || c == '\t' || c == '\n' || c == '\r' || c == '\x0b' || c == '\x0c'

/-- `.strip().lower()` applied to a line of user input: drop leading and
trailing whitespace, then case-fold each character.  Defined on the character
list underlying the string so that it evaluates by kernel reduction. -/
def stripLower (s : String) : String :=
  String.mk
    ((((s.data.dropWhile isSpaceChar).reverse.dropWhile isSpaceChar).reverse).map
      Char.toLower)

/-- The lines printed by `display_question`: numbered header, prompt text,
and the enumerated options in insertion order. -/
def display_question (question : RawQuestion) (question_num : Nat) : List String :=
  ["Question " ++ toString question_num ++ ":", (qText question).render, "Options:"]
    ++ (qOptions question).map (fun e => "  " ++ e.1 ++ ": " ++ e.2)

/-- The re-prompt line printed by `get_user_answer` on an invalid key. -/
def invalidPrompt (question : RawQuestion) : String :=
  "Invalid answer. Please enter one of: " ++ String.intercalate ", " (qKeys question)

/-- Result of `get_user_answer` on a scripted input stream: the accepted
(normalized) answer, or `none` if the stream ran out while the loop was still
re-prompting (the process would block on `input()` forever); plus the unread
rest of the stream and the re-prompt lines printed. -/
structure AnswerOutcome where
  answer : Option String
  remaining : List String
  printed : List String

/-- `get_user_answer`: loop reading a line, normalizing it, and returning it
once the normalized form is one of the question's option keys; otherwise
print the re-prompt and iterate. -/
def get_user_answer (question : RawQuestion) : List String → AnswerOutcome
  | [] => ⟨none, [], []⟩
  | line :: rest =>
    let user_answer := stripLower line
    if (qKeys question).contains user_answer then ⟨some user_answer, rest, []⟩
    else
      let r := get_user_answer question rest
      ⟨r.answer, r.remaining, invalidPrompt question :: r.printed⟩

/-- The full console block of one administered question: the displayed
question, any re-prompt lines, the correct/incorrect feedback line, then the
explanation line. -/
def question_output (question : RawQuestion) (num : Nat) (reprompts : List String)
    (user_answer : String) : List String :=
  display_question question num ++ reprompts ++
    [ (if Value.eqStr (qAnswer question) user_answer then "✓ Correct!"
       else "✗ Incorrect. The correct answer is: " ++ (qAnswer question).render),
      "Explanation: " ++ (qAnswerDesc question).render ]

/-- Result of `run_quiz` on a scripted input stream.  `tally = none` models
the process blocking forever inside `get_user_answer`; `administered` counts
the questions that were fully scored. -/
structure QuizResult where
  tally : Option Nat
  administered : Nat
  printed : List String

/-- The `for i, question in enumerate(questions)` loop of `run_quiz`,
started at index `i`. -/
def run_quiz_aux : Nat → List RawQuestion → List String → QuizResult
  | _, [], _ => ⟨some 0, 0, []⟩
  | i, question :: rest, inputs =>
    let r := get_user_answer question inputs
    match r.answer with
    | none => ⟨none, 0, display_question question (i + 1) ++ r.printed⟩
    | some user_answer =>
      let step := run_quiz_aux (i + 1) rest r.remaining
      ⟨step.tally.map (fun t => (if Value.eqStr (qAnswer question) user_answer then 1 else 0) + t),
        step.administered + 1,
        question_output question (i + 1) r.printed user_answer ++ step.printed⟩

/-- `run_quiz`: administer the questions in order against the scripted input
stream, returning the tally of correct answers. -/
def run_quiz (questions : List RawQuestion) (inputs : List String) : QuizResult :=
  run_quiz_aux 0 questions inputs

/-! ## Loader and main (load_questions and main, src/quiz.py lines 10-38 and
149-189) -/

/-- The possible states of the question-set resource.  List elements that are
not JSON objects are outside the model (in the source every such run also
terminates with exit status 1, via a ValueError or TypeError reaching the
outer handler). -/
inductive LoadInput where
  | missing
  | invalidJson
  | notAList
  | records (questions : List RawQuestion)

/-- `load_questions`: produce the parsed list of records, or fail (the source
prints a message and exits 1 for a missing file, invalid JSON, or a top-level
value that is not a list). -/
def load_questions : LoadInput → Except Unit (List RawQuestion)
  | LoadInput.records questions => Except.ok questions
  | _ => Except.error ()

/-- Outcome of one process run of `main`. -/
inductive RunResult where
  /-- `args.count < 1`: error printed and `sys.exit(1)` before any loading. -/
  | exitBeforeLoad (code : Nat)
  /-- `load_questions` printed an error and called `sys.exit(1)`. -/
  | exitLoadFailed (code : Nat)
  /-- `validate_questions` raised: a ValueError is caught by the specific
  handler (`Error: ...`), a TypeError by the generic one
  (`Unexpected error: ...`); either way printed and `sys.exit(1)`. -/
  | exitValidationFailed (code : Nat) (err : PyError)
  /-- The scripted input ran out inside `get_user_answer`: the process blocks
  on `input()` forever and never exits. -/
  | waitingForInput (administered : Nat)
  /-- `correct_answers / len(selected_questions)` raised ZeroDivisionError;
  caught by the generic handler, printed, `sys.exit(1)`. -/
  | exitDivisionByZero (code : Nat)
  /-- Quiz completed; the score line is printed and the process exits 0. -/
  | finished (correct : Nat) (total : Nat)
deriving DecidableEq, Repr

/-- The exit status of a run (`none`: the process never exits). -/
def RunResult.exitCode : RunResult → Option Nat
  | RunResult.exitBeforeLoad code => some code
  | RunResult.exitLoadFailed code => some code
  | RunResult.exitValidationFailed code _ => some code
  | RunResult.waitingForInput _ => none
  | RunResult.exitDivisionByZero code => some code
  | RunResult.finished _ _ => some 0

/-- How many questions were fully administered (scored) during the run. -/
def RunResult.administeredCount : RunResult → Nat
  | RunResult.exitBeforeLoad _ => 0
  | RunResult.exitLoadFailed _ => 0
  | RunResult.exitValidationFailed _ _ => 0
  | RunResult.waitingForInput administered => administered
  | RunResult.exitDivisionByZero _ => 0
  | RunResult.finished _ total => total

/-- The selection step of `main` (lines 167-174): if fewer questions exist
than requested, warn and use them all; otherwise call
`select_random_questions`. -/
def mainSelected (count : Int) (questions shuffled : List RawQuestion) :
    List RawQuestion :=
  if questions.length < count.toNat then questions
  else select_random_questions questions count.toNat shuffled

/-- `main`: validate the count argument, load, validate, select, run the
quiz, and report.  `shuffled` models the output of `random.shuffle` in
`select_random_questions`; `inputs` is the scripted user input. -/
def quizMain (count : Int) (file : LoadInput) (shuffled : List RawQuestion)
    (inputs : List String) : RunResult :=
  if count < 1 then RunResult.exitBeforeLoad 1
  else
    match load_questions file with
    | Except.error _ => RunResult.exitLoadFailed 1
    | Except.ok questions =>
      match validate_questions questions with
      | Except.error err => RunResult.exitValidationFailed 1 err
      | Except.ok _ =>
        let selected := mainSelected count questions shuffled
        let r := run_quiz selected inputs
        match r.tally with
        | none => RunResult.waitingForInput r.administered
        | some correct =>
          if selected.length = 0 then RunResult.exitDivisionByZero 1
          else RunResult.finished correct selected.length

/-! ## Concrete records used in witnesses and counterexamples -/

/-- A well-formed record with lower-case option keys. -/
def sampleQ : RawQuestion :=
  [("id", Value.num 1), ("q", Value.str "What is 2+2?"),
   ("options", Value.dict [("a", "4"), ("b", "5")]),
   ("answer", Value.str "a"), ("answer_description", Value.str "Basic addition.")]

/-- A second well-formed record with lower-case option keys. -/
def sampleQ2 : RawQuestion :=
  [("id", Value.num 2), ("q", Value.str "Capital of France?"),
   ("options", Value.dict [("a", "Paris"), ("b", "Rome")]),
   ("answer", Value.str "a"), ("answer_description", Value.str "Geography.")]

/-- A well-formed record whose option keys (and answer key) are upper-case. -/
def upperQ : RawQuestion :=
  [("id", Value.num 3), ("q", Value.str "Pick one"),
   ("options", Value.dict [("A", "x"), ("B", "y")]),
   ("answer", Value.str "A"), ("answer_description", Value.str "desc")]

/-- A record missing the `answer_description` field. -/
def badQ : RawQuestion :=
  [("id", Value.num 4), ("q", Value.str "Broken"),
   ("options", Value.dict [("a", "x"), ("b", "y")]),
   ("answer", Value.str "a")]

/-- A record carrying all five fields and a well-formed options mapping, but
whose `answer` value is itself a mapping — unhashable in Python, so the
membership test raises `TypeError` rather than the descriptive
`ValueError`. -/
def dictAnswerQ : RawQuestion :=
  [("id", Value.num 5), ("q", Value.str "Odd one"),
   ("options", Value.dict [("a", "x"), ("b", "y")]),
   ("answer", Value.dict [("a", "x")]),
   ("answer_description", Value.str "d")]

/-! ## Further definitions used by the claims -/

/-- The number of scripted inputs (paired positionally with the questions)
whose trimmed, case-folded form exactly equals the question's recorded
`answer` key. -/
def scriptedTally (questions : List RawQuestion) (inputs : List String) : Nat :=
  (questions.zip inputs).countP (fun p => Value.eqStr (qAnswer p.1) (stripLower p.2))

/-- A Python heap of list objects: a map from references to list contents,
with `next` the next fresh reference. -/
structure PyHeap where
  cells : List (Nat × List RawQuestion)
  next : Nat

/-- Dereference a list object (most recent binding wins). -/
def heapGet (h : PyHeap) (r : Nat) : List RawQuestion :=
  ((h.cells.find? (fun c => c.1 == r)).map (fun c => c.2)).getD []

/-- Allocate a fresh list object holding `v`. -/
def heapAlloc (h : PyHeap) (v : List RawQuestion) : PyHeap × Nat :=
  (⟨(h.next, v) :: h.cells, h.next + 1⟩, h.next)

/-- Overwrite the contents of the list object at `r` (in-place mutation). -/
def heapSet (h : PyHeap) (r : Nat) (v : List RawQuestion) : PyHeap :=
  ⟨(r, v) :: h.cells, h.next⟩

/-- Object-level translation of `select_random_questions`, making the Python
list objects explicit: `questions.copy()` allocates a fresh list object,
`random.shuffle(shuffled)` mutates only that fresh object (overwriting it with
the shuffle outcome `sigma`), and the slice `shuffled[:count]` allocates yet
another fresh object.  Returns the final heap and a reference to the result
list; the object at `qref` is never written. -/
def select_random_questions_heap (h : PyHeap) (qref : Nat) (count : Nat)
    (sigma : List RawQuestion) : PyHeap × Nat :=
  let questions := heapGet h qref
  if count > questions.length then
    heapAlloc h questions
  else
    let copied := heapAlloc h questions
    let afterShuffle := heapSet copied.1 copied.2 sigma
    heapAlloc afterShuffle ((heapGet afterShuffle copied.2).take count)

/-- A concrete heap with one question-set object at reference 0. -/
def sampleHeap : PyHeap := ⟨[(0, [sampleQ, sampleQ2])], 1⟩

/-! ## Validator lemmas -/

theorem validateFrom_ok_iff (i : Nat) (questions : List RawQuestion) :
    validateFrom i questions = Except.ok () ↔
      ∀ q ∈ questions, questionDefect q = none := by
  induction questions generalizing i with
  | nil => simp [validateFrom]
  | cons q rest ih =>
    simp only [validateFrom]
    cases h : questionDefect q with
    | some d => simp [h]
    | none => simp [h, ih]

theorem validateFrom_append_ok (pre : List RawQuestion) :
    ∀ (i : Nat) (rest : List RawQuestion), (∀ q ∈ pre, questionDefect q = none) →
      validateFrom i (pre ++ rest) = validateFrom (i + pre.length) rest := by
  induction pre with
  | nil => intro i rest _; simp [validateFrom]
  | cons q tail ih =>
    intro i rest h
    have hq : questionDefect q = none := h q (by simp)
    simp only [List.cons_append, validateFrom, hq, List.append_eq]
    rw [ih (i + 1) rest (fun x hx => h x (by simp [hx]))]
    congr 1
    simp only [List.length_cons]
    omega

theorem validateFrom_append_err (pre : List RawQuestion) :
    ∀ (i : Nat) (rest : List RawQuestion) (e : PyError),
      validateFrom i pre = Except.error e →
      validateFrom i (pre ++ rest) = Except.error e := by
  induction pre with
  | nil => intro i rest e h; simp [validateFrom] at h
  | cons q tail ih =>
    intro i rest e h
    simp only [List.cons_append, validateFrom] at h ⊢
    cases hq : questionDefect q with
    | some d => rw [hq] at h; exact h
    | none => rw [hq] at h; exact ih _ _ _ h

/-- C3 (amended): `validate_questions` errors exactly when some record has a
defect (missing required field, options not a mapping with at least 2
entries, or answer value not among its own option keys); the exception
raised for the first defective record is `defectError` at that record's
position — a `ValueError` naming the 1-based position and the specific
defect whenever the defect is not the unhashable-answer one, but a fixed,
position-free `TypeError` when the answer value is an unhashable mapping —
and the result is unaffected by anything after the first defective record
(fail-fast). -/
theorem validate_questions_spec (questions : List RawQuestion) :
    ((∃ e, validate_questions questions = Except.error e) ↔
      ∃ q ∈ questions, questionDefect q ≠ none)
  ∧ (∀ (pre : List RawQuestion) (q : RawQuestion) (post : List RawQuestion) (d : Defect),
      questions = pre ++ q :: post →
      (∀ x ∈ pre, questionDefect x = none) →
      questionDefect q = some d →
      validate_questions questions = Except.error (defectError pre.length d))
  ∧ (∀ (i : Nat) (d : Defect), d ≠ Defect.unhashableAnswer →
      (defectError i d).isValueError = true)
  ∧ (∀ (i j : Nat),
      defectError i Defect.unhashableAnswer = defectError j Defect.unhashableAnswer)
  ∧ (∀ (pre : List RawQuestion) (q : RawQuestion) (post : List RawQuestion),
      questionDefect q ≠ none →
      validate_questions (pre ++ q :: post) = validate_questions (pre ++ [q])) := by
  refine ⟨⟨?_, ?_⟩, ?_, ?_, ?_, ?_⟩
  · rintro ⟨e, he⟩
    by_contra hall
    push_neg at hall
    have hok : validate_questions questions = Except.ok () :=
      (validateFrom_ok_iff 0 questions).mpr hall
    rw [hok] at he
    exact Except.noConfusion he
  · rintro ⟨q, hq, hd⟩
    cases hv : validate_questions questions with
    | error e => exact ⟨e, rfl⟩
    | ok u =>
      cases u
      exact absurd ((validateFrom_ok_iff 0 questions).mp hv q hq) hd
  · intro pre q post d hqs hpre hd
    subst hqs
    rw [validate_questions, validateFrom_append_ok pre 0 (q :: post) hpre]
    simp [validateFrom, hd]
  · intro i d hd
    cases d with
    | missingField field => rfl
    | badOptions => rfl
    | badAnswer rendered => rfl
    | unhashableAnswer => exact absurd rfl hd
  · intro i j
    rfl
  · intro pre q post hd
    cases hpre : validateFrom 0 pre with
    | error e =>
      rw [validate_questions, validate_questions,
        validateFrom_append_err pre 0 _ e hpre,
        validateFrom_append_err pre 0 _ e hpre]
    | ok u =>
      cases u
      have hall := (validateFrom_ok_iff 0 pre).mp hpre
      rw [validate_questions, validate_questions,
        validateFrom_append_ok pre 0 _ hall,
        validateFrom_append_ok pre 0 _ hall]
      cases hdef : questionDefect q with
      | none => exact absurd hdef hd
      | some dd => simp [validateFrom, hdef]

/-- Witness for C3 at a concrete input: a record missing
`answer_description` in second position is reported as a `ValueError` naming
Question 2 and that field. -/
theorem validate_questions_spec_witness :
    validate_questions [sampleQ, badQ] =
      Except.error (PyError.valueError
        "Question 2 is missing required field: answer_description") :=
  (validate_questions_spec [sampleQ, badQ]).2.1 [sampleQ] badQ []
    (Defect.missingField "answer_description") rfl (by decide) (by decide)

/-- C3 counterexample: a record (here in second position) carrying all five
fields and a well-formed options mapping, but whose `answer` value is itself
a mapping.  Its membership test `q["answer"] not in q["options"]` raises
`TypeError: unhashable type: dict` — the run still fails, but the raised
exception is not a `ValueError` at all, and its fixed message names no
record position, refuting the claim that the error always identifies the
1-based position of the offending record and its specific defect. -/
theorem validator_position_counterexample :
    validate_questions [sampleQ, dictAnswerQ] =
      Except.error (PyError.typeError "unhashable type: dict")
  ∧ (PyError.typeError "unhashable type: dict").isValueError = false :=
  ⟨rfl, rfl⟩

/-- C4: with `1 ≤ count ≤ size` (size at least 2) and the shuffle outcome a
permutation of the question list, `select_random_questions` returns exactly
`count` records, drawn from the original list without replacement (a
sub-permutation, hence no repeated picks; in particular the selection is
duplicate-free whenever the original list is). -/
theorem select_in_range_spec (questions shuffled : List RawQuestion) (count : Nat)
    (_hsize : 2 ≤ questions.length) (_hone : 1 ≤ count)
    (hle : count ≤ questions.length) (hperm : shuffled.Perm questions) :
    (select_random_questions questions count shuffled).length = count
  ∧ (∀ x ∈ select_random_questions questions count shuffled, x ∈ questions)
  ∧ List.Subperm (select_random_questions questions count shuffled) questions
  ∧ (questions.Nodup → (select_random_questions questions count shuffled).Nodup) := by
  have hnot : ¬ count > questions.length := by omega
  have hsel : select_random_questions questions count shuffled = shuffled.take count := by
    simp [select_random_questions, hnot]
  have hlen : shuffled.length = questions.length := hperm.length_eq
  have hsub : (shuffled.take count).Sublist shuffled := List.take_sublist count shuffled
  refine ⟨?_, ?_, ?_, ?_⟩
  · rw [hsel, List.length_take, hlen]
    omega
  · intro x hx
    rw [hsel] at hx
    exact hperm.mem_iff.mp (hsub.subset hx)
  · rw [hsel]
    exact hsub.subperm.trans hperm.subperm
  · intro hnd
    rw [hsel]
    exact (hperm.nodup_iff.mpr hnd).sublist hsub

/-- Witness for C4 at a concrete input: selecting 1 of 2 questions through
the swapped shuffle yields a singleton, duplicate-free selection. -/
theorem select_in_range_spec_witness :
    (select_random_questions [sampleQ, sampleQ2] 1 [sampleQ2, sampleQ]).length = 1
  ∧ (select_random_questions [sampleQ, sampleQ2] 1 [sampleQ2, sampleQ]).Nodup :=
  ⟨(select_in_range_spec [sampleQ, sampleQ2] [sampleQ2, sampleQ] 1 (by decide)
      (by decide) (by decide) (List.Perm.swap sampleQ sampleQ2 [])).1,
   (select_in_range_spec [sampleQ, sampleQ2] [sampleQ2, sampleQ] 1 (by decide)
      (by decide) (by decide) (List.Perm.swap sampleQ sampleQ2 [])).2.2.2 (by decide)⟩

/-- C5: when more questions are requested than exist,
`select_random_questions` prints the under-supply warning and returns the
original list itself (every record exactly once, in order), raising no
error — the function is total and takes the early-return branch. -/
theorem select_under_supply (questions shuffled : List RawQuestion) (count : Nat)
    (h : questions.length < count) :
    select_random_questions questions count shuffled = questions
  ∧ select_random_questions_output questions count =
      ["Warning: Requested " ++ toString count ++ " questions, but only " ++
        toString questions.length ++ " are available."] := by
  constructor <;> simp [select_random_questions, select_random_questions_output, h]

/-- Witness for C5 at a concrete input: requesting 2 of 1 question returns
the full singleton list. -/
theorem select_under_supply_witness :
    select_random_questions [sampleQ] 2 [] = [sampleQ] :=
  (select_under_supply [sampleQ] [] 2 (by decide)).1

/-- C6: a run whose count argument is 0 or negative exits with status 1
before any loading occurs — the outcome does not depend on the resource at
all — and no question is administered. -/
theorem invalid_count_exits (count : Int) (file : LoadInput)
    (shuffled : List RawQuestion) (inputs : List String) (h : count < 1) :
    quizMain count file shuffled inputs = RunResult.exitBeforeLoad 1
  ∧ (quizMain count file shuffled inputs).exitCode = some 1
  ∧ (quizMain count file shuffled inputs).administeredCount = 0
  ∧ (∀ other : LoadInput,
      quizMain count file shuffled inputs = quizMain count other shuffled inputs) := by
  have hmain : quizMain count file shuffled inputs = RunResult.exitBeforeLoad 1 := by
    simp [quizMain, h]
  refine ⟨hmain, by rw [hmain]; rfl, by rw [hmain]; rfl, ?_⟩
  intro other
  simp [quizMain, h]

/-- Witness for C6 at count 0. -/
theorem invalid_count_exits_witness :
    quizMain 0 LoadInput.missing [] [] = RunResult.exitBeforeLoad 1
  ∧ (quizMain 0 LoadInput.missing [] []).administeredCount = 0 :=
  ⟨(invalid_count_exits 0 LoadInput.missing [] [] (by decide)).1,
   (invalid_count_exits 0 LoadInput.missing [] [] (by decide)).2.2.1⟩

/-- C10: the empty record list passes loading and validation (every
per-record check holds vacuously), and with any requested count at least 1
the empty sequence flows on through selection to the session runner, which
administers zero questions — after which the score computation divides by
zero. -/
theorem empty_set_passes (count : Int) (shuffled : List RawQuestion)
    (inputs : List String) (h : 1 ≤ count) :
    load_questions (LoadInput.records []) = Except.ok []
  ∧ validate_questions [] = Except.ok ()
  ∧ mainSelected count [] shuffled = []
  ∧ run_quiz [] inputs = ⟨some 0, 0, []⟩
  ∧ quizMain count (LoadInput.records []) shuffled inputs =
      RunResult.exitDivisionByZero 1 := by
  have hlt : ([] : List RawQuestion).length < count.toNat := by
    simp only [List.length_nil]
    omega
  have hnc : ¬ count < 1 := by omega
  have hsel : mainSelected count [] shuffled = [] := by
    unfold mainSelected
    rw [if_pos hlt]
  refine ⟨rfl, rfl, hsel, rfl, ?_⟩
  unfold quizMain
  rw [if_neg hnc]
  simp only [load_questions, validate_questions, validateFrom, hsel, run_quiz,
    run_quiz_aux, List.length_nil, if_pos]

/-- Witness for C10 at count 1 with no shuffle and no input. -/
theorem empty_set_passes_witness :
    validate_questions [] = Except.ok ()
  ∧ quizMain 1 (LoadInput.records []) [] [] = RunResult.exitDivisionByZero 1 :=
  ⟨(empty_set_passes 1 [] [] (by decide)).2.1,
   (empty_set_passes 1 [] [] (by decide)).2.2.2.2⟩

/-! ## Session-runner lemmas -/

theorem get_user_answer_answer_eq (question : RawQuestion) (inputs : List String) :
    (get_user_answer question inputs).answer =
      (inputs.find? (fun line => (qKeys question).contains (stripLower line))).map
        stripLower := by
  induction inputs with
  | nil => rfl
  | cons line rest ih =>
    cases hline : (qKeys question).contains (stripLower line) with
    | true =>
      have hmem : stripLower line ∈ qKeys question := by simpa using hline
      simp [get_user_answer, List.find?_cons, hline, hmem]
    | false =>
      have hmem : stripLower line ∉ qKeys question := by simpa using hline
      simp [get_user_answer, List.find?_cons, hline, hmem, ih]

theorem get_user_answer_printed_eq (question : RawQuestion) (inputs : List String) :
    ∀ line ∈ (get_user_answer question inputs).printed,
      line = invalidPrompt question := by
  induction inputs with
  | nil => intro line hl; simp [get_user_answer] at hl
  | cons x rest ih =>
    intro line hl
    cases hx : (qKeys question).contains (stripLower x) with
    | true =>
      have hmem : stripLower x ∈ qKeys question := by simpa using hx
      simp [get_user_answer, hmem] at hl
    | false =>
      have hmem : stripLower x ∉ qKeys question := by simpa using hx
      simp [get_user_answer, hmem] at hl
      rcases hl with hl | hl
      · exact hl
      · exact ih line hl

/-- C7: invalid input is recoverable.  `get_user_answer` returns exactly the
normalization of the first scripted line whose normalization is a valid
option key; every line it prints is the re-prompt listing the valid keys; any
answer it returns is a member of the question's option key set; and it keeps
waiting (returns nothing, rather than failing) precisely when no scripted
line ever normalizes to a valid key. -/
theorem get_user_answer_spec (question : RawQuestion) (inputs : List String) :
    ((get_user_answer question inputs).answer =
      (inputs.find? (fun line => (qKeys question).contains (stripLower line))).map
        stripLower)
  ∧ (∀ line ∈ (get_user_answer question inputs).printed,
      line = invalidPrompt question)
  ∧ (∀ a, (get_user_answer question inputs).answer = some a →
      (qKeys question).contains a = true)
  ∧ ((get_user_answer question inputs).answer = none ↔
      ∀ line ∈ inputs, (qKeys question).contains (stripLower line) = false) := by
  refine ⟨get_user_answer_answer_eq question inputs,
    get_user_answer_printed_eq question inputs, ?_, ?_⟩
  · intro a ha
    rw [get_user_answer_answer_eq] at ha
    rcases Option.map_eq_some'.mp ha with ⟨line, hfind, heq⟩
    have hp := List.find?_some hfind
    rw [← heq]
    simpa using hp
  · rw [get_user_answer_answer_eq]
    simp only [Option.map_eq_none', List.find?_eq_none]
    constructor
    · intro hall line hline
      simpa using hall line hline
    · intro hall line hline
      simpa using hall line hline

/-- Witness for C7 at a concrete input: after one invalid line the answer
returned is a valid key. -/
theorem get_user_answer_spec_witness :
    (qKeys sampleQ).contains "a" = true :=
  (get_user_answer_spec sampleQ ["z", "a"]).2.2.1 "a" (by decide)

theorem run_quiz_aux_explains (questions : List RawQuestion) :
    ∀ (i : Nat) (inputs : List String),
      (run_quiz_aux i questions inputs).tally.isSome = true →
      ∀ question ∈ questions,
        ("Explanation: " ++ (qAnswerDesc question).render) ∈
          (run_quiz_aux i questions inputs).printed := by
  induction questions with
  | nil =>
    intro i inputs _ question hq
    simp at hq
  | cons q rest ih =>
    intro i inputs htally question hq
    cases hans : (get_user_answer q inputs).answer with
    | none => simp [run_quiz_aux, hans] at htally
    | some ua =>
      simp only [run_quiz_aux, hans] at htally ⊢
      have hrec : (run_quiz_aux (i + 1) rest
          (get_user_answer q inputs).remaining).tally.isSome = true := by
        simpa using htally
      rcases List.mem_cons.mp hq with rfl | hq
      · exact List.mem_append_left _ (by simp [question_output])
      · exact List.mem_append_right _
          (ih (i + 1) (get_user_answer q inputs).remaining hrec question hq)

/-- C8: after each administered question is scored, the explanation text is
displayed: the per-question console block always ends with the
`Explanation:` line, directly after the feedback line, whether the feedback
was `Correct` or `Incorrect`; consequently every question of a completed run
has its explanation among the printed output. -/
theorem explanation_always_shown :
    (∀ (question : RawQuestion) (num : Nat) (reprompts : List String)
        (user_answer : String),
      ∃ feedback,
        question_output question num reprompts user_answer =
          display_question question num ++ reprompts ++
            [feedback, "Explanation: " ++ (qAnswerDesc question).render]
        ∧ (feedback = "✓ Correct!" ∨
            feedback = "✗ Incorrect. The correct answer is: " ++
              (qAnswer question).render))
  ∧ (∀ (questions : List RawQuestion) (inputs : List String),
      (run_quiz questions inputs).tally.isSome = true →
      ∀ question ∈ questions,
        ("Explanation: " ++ (qAnswerDesc question).render) ∈
          (run_quiz questions inputs).printed) := by
  constructor
  · intro question num reprompts user_answer
    by_cases hc : (Value.eqStr (qAnswer question) user_answer) = true
    · exact ⟨"✓ Correct!", by simp [question_output, hc], Or.inl rfl⟩
    · exact ⟨"✗ Incorrect. The correct answer is: " ++ (qAnswer question).render,
        by simp [question_output, hc], Or.inr rfl⟩
  · intro questions inputs htally question hq
    exact run_quiz_aux_explains questions 0 inputs htally question hq

/-- Witness for C8 at a concrete completed run: the explanation of the
administered question appears in the output. -/
theorem explanation_always_shown_witness :
    ("Explanation: " ++ (qAnswerDesc sampleQ).render) ∈
      (run_quiz [sampleQ] ["a"]).printed :=
  explanation_always_shown.2 [sampleQ] ["a"] (by decide) sampleQ (by decide)

/-- C2 counterexample: for the question whose option keys are upper-case
(`upperQ`, keys `A`/`B`, answer `A`) and the scripted input `"A"`, the claim
predicts a final tally (namely the count of inputs whose normalization
exactly matches the answer key), but the session never produces one: the
lower-cased input `a` is not among the raw keys `A`, `B`, so the runner
re-prompts forever and the tally is never reached. -/
theorem scoring_claim_counterexample :
    (run_quiz [upperQ] ["A"]).tally ≠ some (scriptedTally [upperQ] ["A"]) := by
  decide

/-- C2 amended: whenever each scripted input (one per question) normalizes
to a valid option key of its question, the final tally equals the number of
questions whose normalized input exactly matches the recorded `answer` key.
(Without that proviso — e.g. with upper-case option keys — the runner
re-prompts forever and no tally is produced.) -/
theorem run_quiz_tally_spec (questions : List RawQuestion) (inputs : List String)
    (h : List.Forall₂ (fun question line =>
        (qKeys question).contains (stripLower line) = true) questions inputs) :
    (run_quiz questions inputs).tally = some (scriptedTally questions inputs) := by
  have aux : ∀ i, (run_quiz_aux i questions inputs).tally =
      some (scriptedTally questions inputs) := by
    induction h with
    | nil => intro i; rfl
    | @cons question line qs lines hql htail ih =>
      intro i
      have hmem : stripLower line ∈ qKeys question := by simpa using hql
      cases hcorrect : Value.eqStr (qAnswer question) (stripLower line) with
      | true =>
        simp [run_quiz_aux, get_user_answer, hmem, ih, scriptedTally,
          List.countP_cons, hcorrect, Nat.add_comm]
      | false =>
        simp [run_quiz_aux, get_user_answer, hmem, ih, scriptedTally,
          List.countP_cons, hcorrect]
  exact aux 0

/-- Witness for the amended C2 at a concrete input: answers `" A "` (correct
after trimming and folding) and `"b"` (valid but incorrect) score exactly
one point. -/
theorem run_quiz_tally_spec_witness :
    (run_quiz [sampleQ, sampleQ2] [" A ", "b"]).tally =
      some (scriptedTally [sampleQ, sampleQ2] [" A ", "b"]) :=
  run_quiz_tally_spec [sampleQ, sampleQ2] [" A ", "b"]
    (List.Forall₂.cons (by decide) (List.Forall₂.cons (by decide) List.Forall₂.nil))

/-- C1 counterexample: a run with requested count 1 over an empty (but
valid) question set reaches the Reporter with an empty selected sequence,
and the percentage computation divides by zero (the source raises
ZeroDivisionError, caught by the generic handler, exiting 1) — refuting the
claim that the selected sequence is non-empty and the division safe even for
an empty question set. -/
theorem reporter_divzero_counterexample :
    quizMain 1 (LoadInput.records []) [] [] = RunResult.exitDivisionByZero 1
  ∧ mainSelected 1 [] [] = ([] : List RawQuestion) := by
  exact ⟨by decide, by decide⟩

/-- C1 amended: for every run with requested count at least 1 over a valid,
NON-EMPTY question set that reaches the Reporter (the session completes),
at least one question has been administered — the selected sequence is
non-empty — so the percentage computation does not divide by zero and the
run finishes normally. -/
theorem reporter_safe_nonempty (count : Int) (questions shuffled : List RawQuestion)
    (inputs : List String) (hcount : 1 ≤ count) (hne : questions ≠ [])
    (hperm : shuffled.Perm questions)
    (hvalid : validate_questions questions = Except.ok ())
    (hdone : (run_quiz (mainSelected count questions shuffled) inputs).tally.isSome
      = true) :
    ∃ correct total,
      quizMain count (LoadInput.records questions) shuffled inputs =
        RunResult.finished correct total ∧ 1 ≤ total := by
  have hnl : ¬ count < 1 := by omega
  have hlen : 1 ≤ (mainSelected count questions shuffled).length := by
    unfold mainSelected
    by_cases hc : questions.length < count.toNat
    · rw [if_pos hc]
      exact List.length_pos.mpr hne
    · rw [if_neg hc]
      have hgt : ¬ count.toNat > questions.length := by omega
      unfold select_random_questions
      rw [if_neg hgt]
      rw [List.length_take, hperm.length_eq]
      omega
  rcases Option.isSome_iff_exists.mp hdone with ⟨correct, hcorrect⟩
  refine ⟨correct, (mainSelected count questions shuffled).length, ?_, hlen⟩
  have hzero : ¬ (mainSelected count questions shuffled).length = 0 := by omega
  unfold quizMain
  rw [if_neg hnl]
  simp only [load_questions, hvalid, hcorrect, hzero, if_false]

/-- Witness for the amended C1 at a concrete input: one question, count 1,
identity shuffle, a valid scripted answer. -/
theorem reporter_safe_nonempty_witness :
    ∃ correct total,
      quizMain 1 (LoadInput.records [sampleQ]) [sampleQ] ["a"] =
        RunResult.finished correct total ∧ 1 ≤ total :=
  reporter_safe_nonempty 1 [sampleQ] [sampleQ] ["a"] (by decide) (by decide)
    (List.Perm.refl [sampleQ]) rfl (by decide)

/-! ## Heap lemmas for the no-mutation claim -/

theorem heapGet_cons_ne (cells : List (Nat × List RawQuestion)) (n r key : Nat)
    (v : List RawQuestion) (hne : key ≠ r) :
    heapGet ⟨(key, v) :: cells, n⟩ r = heapGet ⟨cells, n⟩ r := by
  simp [heapGet, List.find?_cons, hne]

theorem heapGet_cons_self (cells : List (Nat × List RawQuestion)) (n key : Nat)
    (v : List RawQuestion) :
    heapGet ⟨(key, v) :: cells, n⟩ key = v := by
  simp [heapGet, List.find?_cons]

/-- C9: `select_random_questions` never mutates its input list object.  In
the object-level translation — where `questions.copy()` allocates, the
shuffle mutates only the fresh copy, and the slice allocates again — the
question-set object at `qref` holds, after the call, exactly the contents it
held before (same elements, same order); and the returned object holds the
value computed by the value-level `select_random_questions`. -/
theorem select_no_mutation (h : PyHeap) (qref : Nat) (count : Nat)
    (sigma : List RawQuestion) (href : qref < h.next) :
    heapGet (select_random_questions_heap h qref count sigma).1 qref =
      heapGet h qref
  ∧ heapGet (select_random_questions_heap h qref count sigma).1
      (select_random_questions_heap h qref count sigma).2 =
      select_random_questions (heapGet h qref) count sigma := by
  have hne : h.next ≠ qref := by omega
  have hne1 : h.next + 1 ≠ qref := by omega
  by_cases hc : count > (heapGet h qref).length
  · have hs : select_random_questions_heap h qref count sigma =
        (⟨(h.next, heapGet h qref) :: h.cells, h.next + 1⟩, h.next) := by
      simp [select_random_questions_heap, hc, heapAlloc]
    rw [hs]
    constructor
    · rw [heapGet_cons_ne _ _ _ _ _ hne]
      rfl
    · rw [heapGet_cons_self]
      simp [select_random_questions, hc]
  · have hs : select_random_questions_heap h qref count sigma =
        (⟨(h.next + 1, sigma.take count) :: (h.next, sigma) ::
            (h.next, heapGet h qref) :: h.cells, h.next + 2⟩, h.next + 1) := by
      simp [select_random_questions_heap, hc, heapAlloc, heapSet, heapGet_cons_self]
    rw [hs]
    constructor
    · rw [heapGet_cons_ne _ _ _ _ _ hne1, heapGet_cons_ne _ _ _ _ _ hne,
        heapGet_cons_ne _ _ _ _ _ hne]
      rfl
    · rw [heapGet_cons_self]
      simp [select_random_questions, hc]

/-- Witness for C9 at a concrete heap: the question-set object at reference
0 is unchanged by a selecting call. -/
theorem select_no_mutation_witness :
    heapGet (select_random_questions_heap sampleHeap 0 1 [sampleQ2, sampleQ]).1 0 =
      heapGet sampleHeap 0 :=
  (select_no_mutation sampleHeap 0 1 [sampleQ2, sampleQ] (by decide)).1
